import Mathlib

/-!
Shallow embedding of `src/Mac/Wav2Bin/main.cpp` (Wav2Bin): a tool that
concatenates PCM WAV payloads into a sector-aligned BIN image and emits a
CUE sheet.  File contents are modelled as `List Nat` (one `Nat` per byte),
paths as `String`, the filesystem as `String → Option (List Nat)` (`none`
means the file cannot be opened).  The 32-bit unsigned variables of the
source (`rawAudioSize`, `alignedSize`, `currentOffsetFrames`) are modelled
as `Nat` with explicit `% 4294967296` where overflow matters.
-/

namespace Wav2Bin

/-- Byte `i` of a file's contents; bytes past the end are modelled as 0
(the source never checks for a short header read, see the comment on
`validateHeader`). -/
def byteAt (c : List Nat) (i : Nat) : Nat := c.getD i 0

/-- The 4 bytes of `WAVHeader.chunkID` (offsets 0..3 of the file). -/
def chunkID (c : List Nat) : List Nat :=
  [byteAt c 0, byteAt c 1, byteAt c 2, byteAt c 3]

/-- The 4 bytes of `WAVHeader.format` (offsets 8..11 of the file). -/
def formatField (c : List Nat) : List Nat :=
  [byteAt c 8, byteAt c 9, byteAt c 10, byteAt c 11]

/-- `WAVHeader.audioFormat`: little-endian `uint16_t` at offsets 20..21. -/
def audioFormat (c : List Nat) : Nat :=
  byteAt c 20 + 256 * byteAt c 21

/-- `WAVHeader.subchunk2Size`: little-endian `uint32_t` at offsets 40..43. -/
def subchunk2Size (c : List Nat) : Nat :=
  byteAt c 40 + 256 * byteAt c 41 + 65536 * byteAt c 42 + 16777216 * byteAt c 43

/-- ASCII bytes of the string `RIFF`. -/
def riffBytes : List Nat := [82, 73, 70, 70]

/-- ASCII bytes of the string `WAVE`. -/
def waveBytes : List Nat := [87, 65, 86, 69]

/-- The header validation of `convertWAVToBIN` (main.cpp line 82): the file
is rejected iff `chunkID != "RIFF" || format != "WAVE" || audioFormat != 1`.
The source reads the 44-byte header with an unchecked `istream::read`; for
files shorter than 44 bytes the C++ leaves part of the struct
indeterminate, and this model reads those bytes as 0. -/
def validateHeader (c : List Nat) : Bool :=
  (chunkID c == riffBytes) && (formatField c == waveBytes) && (audioFormat c == 1)

/-- `rawAudioSize = header.subchunk2Size` (main.cpp line 86). -/
def rawSize (c : List Nat) : Nat := subchunk2Size c

/-- The PCM payload following the 44-byte header. -/
def payload (c : List Nat) : List Nat := c.drop 44

/-- Value of the double expression
`std::ceil(static_cast<double>(raw) / CD_SECTOR_SIZE) * CD_SECTOR_SIZE`
(main.cpp line 87) as an exact natural number.  For every `raw < 2^32`
the IEEE-754 double computation is exact: the quotient `raw / 2352` is
below `2^21`, so the correctly rounded double quotient differs from the
true quotient by at most `2^-33 < 1/2352` and is exact whenever the true
quotient is an integer, hence its ceiling is the exact integer ceiling
(theorem `float_ceil_div_agrees` below), and the final product is below
`2^33 < 2^53`, hence exact. -/
def alignedSizeExact (raw : Nat) : Nat := (raw + 2351) / 2352 * 2352

/-- The value stored in the `uint32_t alignedSize` variable (main.cpp
line 87).  Whenever `alignedSizeExact raw ≥ 2^32` (i.e. `raw >
4294966032`) the double-to-`uint32_t` conversion is out of range, which
is undefined behaviour in C++ (x86-64 builds truncate to the low 32 bits,
ARM64 builds saturate to `2^32 - 1`); the model uses the wrap-around
convention `% 2^32`. -/
def alignedSize (raw : Nat) : Nat := alignedSizeExact raw % 4294967296

/-- Number of payload bytes actually read by
`wavFile.read(audioData.data(), rawAudioSize)` (main.cpp line 91):
`istream::read` stops at end of file. -/
def bytesRead (c : List Nat) : Nat := min (rawSize c) (payload c).length

/-- The `alignedSize`-byte block written to the BIN file for one input
(main.cpp lines 90-95): a zero-filled buffer of `alignedSize` bytes whose
front is overwritten by the payload bytes read (at most `rawSize` of
them). -/
def fileBlock (c : List Nat) : List Nat :=
  ((payload c).take (rawSize c) ++ List.replicate (alignedSize (rawSize c)) 0).take
    (alignedSize (rawSize c))

/-- Last path component, as `std::filesystem::path::filename` on POSIX:
the substring after the last `/`. -/
def lastComponent (s : String) : String := (s.splitOn ("/")).getLastD ""

/-- Index of the last `.` in a list of characters, if any. -/
def lastIndexOfDot (l : List Char) : Option Nat :=
  match l.reverse.findIdx? (fun ch => ch == '.') with
  | none => none
  | some j => some (l.length - 1 - j)

/-- `std::filesystem::path(p).stem().string()` (main.cpp line 99): the
filename without its extension; a filename of `.` or `..`, or one whose
only leading dot is its last dot, has no extension. -/
def stem (s : String) : String :=
  let fn := lastComponent s
  if fn == "." || fn == ".." then fn
  else
    match lastIndexOfDot fn.toList with
    | none => fn
    | some 0 => fn
    | some i => String.mk (fn.toList.take i)

/-- One entry of the `tracks` vector (struct `TrackInfo`, main.cpp
lines 38-41). -/
structure TrackInfo where
  title : String
  offsetFrames : Nat
deriving DecidableEq

/-- The two kinds of `std::runtime_error` raised by `convertWAVToBIN` for
an input file (main.cpp lines 74 and 83). -/
inductive CoreErr where
  | ioError (msg : String)
  | formatError (msg : String)
deriving DecidableEq

/-- The `what()` message carried by a core error. -/
def errMsg : CoreErr → String
  | .ioError m => m
  | .formatError m => m

/-- Result of `convertWAVToBIN`: bytes written to the BIN file, the
`tracks` vector, and the first error raised (if any). -/
structure ConvResult where
  bin : List Nat
  tracks : List TrackInfo
  err : Option CoreErr
deriving DecidableEq

/-- The loop body of `convertWAVToBIN` (main.cpp lines 71-105), processing
the input files in order starting from the running `uint32_t`
`currentOffsetFrames` counter `off`; it stops at the first unopenable or
invalid file.  Each input is a pair of a path and `Option` contents
(`none` = the file cannot be opened). -/
def convertGo (off : Nat) : List (String × Option (List Nat)) → ConvResult
  | [] => ⟨[], [], none⟩
  | (p, none) :: _ => ⟨[], [], some (.ioError ("Failed to open WAV file: " ++ p))⟩
  | (p, some c) :: rest =>
    if validateHeader c then
      let a := alignedSize (rawSize c)
      let r := convertGo ((off + a / 2352) % 4294967296) rest
      ⟨fileBlock c ++ r.bin, ⟨stem p, off⟩ :: r.tracks, r.err⟩
    else ⟨[], [], some (.formatError ("Invalid or unsupported WAV file format: " ++ p))⟩

/-- `convertWAVToBIN` (main.cpp lines 62-108), starting from
`currentOffsetFrames = 0`. -/
def convertWAVToBIN (files : List (String × Option (List Nat))) : ConvResult :=
  convertGo 0 files

/-- Whether processing one input file succeeds: it opens and its header
validates. -/
def fileOkB (f : String × Option (List Nat)) : Bool :=
  match f.2 with
  | none => false
  | some c => validateHeader c

/-- The error raised for a failing input file (guarded by
`fileOkB f = false` in the theorems below). -/
def stepError (f : String × Option (List Nat)) : CoreErr :=
  match f.2 with
  | none => .ioError ("Failed to open WAV file: " ++ f.1)
  | some _ => .formatError ("Invalid or unsupported WAV file format: " ++ f.1)

/-- The BIN block contributed by one input file (contents defaulted for
unopenable files; only used under `fileOkB`). -/
def blockOf (f : String × Option (List Nat)) : List Nat := fileBlock (f.2.getD [])

/-- The frame-count increment `alignedSize / CD_BYTES_PER_FRAME` of one
input file (main.cpp line 104). -/
def frameInc (f : String × Option (List Nat)) : Nat :=
  alignedSize (rawSize (f.2.getD [])) / 2352

/-- The running `uint32_t` counter after one input file
(`currentOffsetFrames += alignedSize / CD_BYTES_PER_FRAME`). -/
def nextOff (off : Nat) (f : String × Option (List Nat)) : Nat :=
  (off + frameInc f) % 4294967296

/-- The running counter after a list of input files. -/
def offAfter (off : Nat) : List (String × Option (List Nat)) → Nat
  | [] => off
  | f :: fs => offAfter (nextOff off f) fs

/-- The `tracks` vector produced from starting counter `off` when every
file succeeds. -/
def trackList (off : Nat) : List (String × Option (List Nat)) → List TrackInfo
  | [] => []
  | (p, oc) :: fs => ⟨stem p, off⟩ :: trackList (nextOff off (p, oc)) fs

/-- Decimal rendering padded by `std::setw(2)` with `std::setfill('0')`
(main.cpp lines 55-57): the field is left-padded with `0` to a minimum
width of 2 characters. -/
def pad2 (n : Nat) : String :=
  let s := toString n
  if s.length < 2 then "0" ++ s else s

/-- The `MM:SS:FF` timecode written on an `INDEX 01` line (main.cpp
lines 54-57). -/
def timecode (f : Nat) : String :=
  pad2 (f / (75 * 60)) ++ ":" ++ pad2 (f / 75 % 60) ++ ":" ++ pad2 (f % 75)

/-- The three lines written for track `i` (0-based) by `writeCUEFile`
(main.cpp lines 51-57).  The track number `(i + 1)` is printed with
default stream formatting: no `setw`, hence no zero padding. -/
def trackEntry (i : Nat) (t : TrackInfo) : String :=
  "  TRACK " ++ toString (i + 1) ++ " AUDIO\n" ++
  "    TITLE \"" ++ t.title ++ "\"\n" ++
  "    INDEX 01 " ++ timecode t.offsetFrames ++ "\n"

/-- The per-track lines of the CUE file, starting at 0-based index `i`. -/
def cueBody : Nat → List TrackInfo → String
  | _, [] => ""
  | i, t :: ts => trackEntry i t ++ cueBody (i + 1) ts

/-- The full text written by `writeCUEFile` (main.cpp lines 43-60). -/
def writeCUEFile (binFileName : String) (tracks : List TrackInfo) : String :=
  "FILE \"" ++ binFileName ++ "\" BINARY\n" ++ cueBody 0 tracks

/-- Banner printed by `main` when fewer than 3 program arguments are
given (main.cpp line 112). -/
def bannerMsg : String := "Wav2Bin (c) 2024 Lorenzo Bachman\n"

/-- Usage line printed by `main` to stderr (main.cpp line 113). -/
def usageMsg (prog : String) : String :=
  "Usage: " ++ prog ++ " <output BIN file> <output CUE file> <input WAV file(s)>\n"

/-- The driver `main` (main.cpp lines 110-137) as a function of the
argument vector, the input filesystem, and the openability of the two
output paths; it returns `(exit code, stdout, stderr)`. -/
def mainModel (argv : List String) (fs : String → Option (List Nat))
    (binOpen cueOpen : Bool) : Nat × String × String :=
  if argv.length < 4 then
    (1, bannerMsg, usageMsg (argv.headD ""))
  else if binOpen = false then
    (1, "", ("Error: " ++ "Failed to open BIN file for writing." ++ "\n"))
  else
    match (convertWAVToBIN ((argv.drop 3).map (fun p => (p, fs p)))).err with
    | some e => (1, "", ("Error: " ++ errMsg e ++ "\n"))
    | none =>
      if cueOpen = false then
        (1, "", ("Error: " ++ "Failed to open CUE file for writing." ++ "\n"))
      else
        (0, "Conversion completed successfully.\n", "")

/-- Decimal rendering zero-padded to exactly two digits, following the
spec's words for track numbers (`TRACK 01 AUDIO`, `TRACK 02 AUDIO`);
written for comparison with the source's `trackEntry`. -/
def specPad2Exact (n : Nat) : String :=
  if n < 10 then "0" ++ toString n else toString n

/-- CUE text as described by the spec (section 4.3): identical to the
source's output except that track numbers are zero-padded to two digits;
written for comparison with `writeCUEFile`. -/
def specCueTwoDigit (binFileName : String) (tracks : List TrackInfo) : String :=
  "FILE \"" ++ binFileName ++ "\" BINARY\n" ++
  String.join ((tracks.zip (List.range tracks.length)).map (fun ti =>
    "  TRACK " ++ specPad2Exact (ti.2 + 1) ++ " AUDIO\n" ++
    "    TITLE \"" ++ ti.1.title ++ "\"\n" ++
    "    INDEX 01 " ++ timecode ti.1.offsetFrames ++ "\n"))

/-- CUE text with unpadded decimal track numbers, structured as a zip with
an index range; the amended form of claim C5, to be proved equal to the
source's `writeCUEFile`. -/
def specCueUnpadded (binFileName : String) (tracks : List TrackInfo) : String :=
  "FILE \"" ++ binFileName ++ "\" BINARY\n" ++
  String.join ((tracks.zip (List.range tracks.length)).map (fun ti =>
    "  TRACK " ++ toString (ti.2 + 1) ++ " AUDIO\n" ++
    "    TITLE \"" ++ ti.1.title ++ "\"\n" ++
    "    INDEX 01 " ++ timecode ti.1.offsetFrames ++ "\n"))

/-- Claim C2 as stated: for a sequence of valid input WAV files, the BIN
output is the concatenation of the per-track `alignedSize`-byte blocks in
input order; within each block, bytes `[0, min(rawSize, bytesRead))` hold
the PCM payload and bytes `[rawSize, alignedSize)` are zero; the total
length is the sum of the `alignedSize`s. -/
def ClaimC2 (files : List (String × Option (List Nat))) : Prop :=
  (∀ f ∈ files, fileOkB f = true) →
    (convertWAVToBIN files).bin = (files.map blockOf).flatten
    ∧ (∀ f ∈ files, ∀ c, f.2 = some c →
        (∀ i, i < min (rawSize c) (bytesRead c) → (fileBlock c)[i]? = (payload c)[i]?)
        ∧ (∀ i, rawSize c ≤ i → i < alignedSize (rawSize c) → (fileBlock c)[i]? = some 0))
    ∧ (convertWAVToBIN files).bin.length
        = (files.map (fun f => alignedSize (rawSize (f.2.getD [])))).sum

/-- Claim C3 as stated: for a sequence of valid input WAV files, the
`offsetFrames` of track `i` is the sum of `alignedSize / 2352` over
tracks `0..i-1`, every such division is exact (every `alignedSize` is a
multiple of 2352), and track 0's offset is 0. -/
def ClaimC3 (files : List (String × Option (List Nat))) : Prop :=
  (∀ f ∈ files, fileOkB f = true) →
    (∀ i (hi : i < (convertWAVToBIN files).tracks.length),
       ((convertWAVToBIN files).tracks.get ⟨i, hi⟩).offsetFrames
         = ((files.take i).map frameInc).sum)
    ∧ (∀ f ∈ files, alignedSize (rawSize (f.2.getD [])) % 2352 = 0)
    ∧ (∀ h0 : 0 < (convertWAVToBIN files).tracks.length,
        ((convertWAVToBIN files).tracks.get ⟨0, h0⟩).offsetFrames = 0)

/-- Claim C5 as stated: the CUE output has the spec's line-by-line format
with 1-based sequential track numbers zero-padded to two digits. -/
def ClaimC5 (binFileName : String) (tracks : List TrackInfo) : Prop :=
  writeCUEFile binFileName tracks = specCueTwoDigit binFileName tracks

/-- A valid 44-byte PCM WAV header whose `subchunk2Size` is `2^32 - 1`
(bytes 40..43 all `255`): `RIFF`, chunk size 36, `WAVE`, `fmt `, size 16,
audioFormat 1, 2 channels, sample rate 44100, byte rate 176400, block
align 4, 16 bits per sample, `data`. -/
def cexHeader : List Nat :=
  [82, 73, 70, 70, 36, 0, 0, 0, 87, 65, 86, 69,
   102, 109, 116, 32, 16, 0, 0, 0, 1, 0, 2, 0,
   68, 172, 0, 0, 16, 177, 2, 0, 4, 0, 16, 0,
   100, 97, 116, 97, 255, 255, 255, 255]

/-- The `cexHeader` followed by 1089 payload bytes of value 1: a valid WAV
file whose declared payload size (`2^32 - 1`) makes the sector alignment
overflow `uint32_t`. -/
def cexC2content : List Nat := cexHeader ++ List.replicate 1089 1

/-- A valid 44-byte PCM WAV header with `subchunk2Size = 4`. -/
def goodHeader : List Nat :=
  [82, 73, 70, 70, 36, 0, 0, 0, 87, 65, 86, 69,
   102, 109, 116, 32, 16, 0, 0, 0, 1, 0, 2, 0,
   68, 172, 0, 0, 16, 177, 2, 0, 4, 0, 16, 0,
   100, 97, 116, 97, 4, 0, 0, 0]

/-- The `goodHeader` followed by its 4 declared payload bytes. -/
def goodFile : List Nat := goodHeader ++ [10, 20, 30, 40]

/-- A valid 44-byte PCM WAV header with `subchunk2Size = 0` and no
payload. -/
def zeroHeader : List Nat :=
  [82, 73, 70, 70, 36, 0, 0, 0, 87, 65, 86, 69,
   102, 109, 116, 32, 16, 0, 0, 0, 1, 0, 2, 0,
   68, 172, 0, 0, 16, 177, 2, 0, 4, 0, 16, 0,
   100, 97, 116, 97, 0, 0, 0, 0]

/-- Concrete input list used by witnesses: a single well-formed WAV file. -/
def goodFiles : List (String × Option (List Nat)) := [("t.wav", some goodFile)]

/-- The exact aligned size is a multiple of the sector size. -/
theorem alignedSizeExact_mod (raw : Nat) : alignedSizeExact raw % 2352 = 0 :=
  Nat.mul_mod_left _ _

/-- The exact aligned size dominates the raw size and overshoots by less
than one sector. -/
theorem le_alignedSizeExact (raw : Nat) :
    raw ≤ alignedSizeExact raw ∧ alignedSizeExact raw - raw < 2352 := by
  unfold alignedSizeExact
  omega

/-- Below the overflow threshold the exact aligned size fits in 32 bits. -/
theorem alignedSizeExact_lt (raw : Nat) (h : raw ≤ 4294966032) :
    alignedSizeExact raw < 4294967296 := by
  unfold alignedSizeExact
  omega

/-- Below the overflow threshold the stored `uint32_t` equals the exact
aligned size. -/
theorem alignedSize_eq_exact (raw : Nat) (h : raw ≤ 4294966032) :
    alignedSize raw = alignedSizeExact raw :=
  Nat.mod_eq_of_lt (alignedSizeExact_lt raw h)

/-- The exact aligned size is the rational ceiling `⌈raw / 2352⌉ * 2352`. -/
theorem alignedSizeExact_eq_ceil (raw : Nat) :
    (alignedSizeExact raw : ℤ) = 2352 * ⌈(raw : ℚ) / 2352⌉ := by
  have hle : raw ≤ (raw + 2351) / 2352 * 2352 := by omega
  have hge : (raw + 2351) / 2352 * 2352 ≤ raw + 2351 := Nat.div_mul_le_self _ _
  have hleQ : (raw : ℚ) ≤ (((raw + 2351) / 2352 : ℕ) : ℚ) * 2352 := by
    exact_mod_cast hle
  have hgeQ : (((raw + 2351) / 2352 : ℕ) : ℚ) * 2352 ≤ (raw : ℚ) + 2351 := by
    exact_mod_cast hge
  have hceil : ⌈(raw : ℚ) / 2352⌉ = (((raw + 2351) / 2352 : ℕ) : ℤ) := by
    rw [Int.ceil_eq_iff]
    refine ⟨?_, ?_⟩
    · simp only [Int.cast_natCast]
      rw [lt_div_iff₀ (by norm_num : (0 : ℚ) < 2352)]
      linarith
    · simp only [Int.cast_natCast]
      rw [div_le_iff₀ (by norm_num : (0 : ℚ) < 2352)]
      linarith
  rw [hceil]
  show (((raw + 2351) / 2352 * 2352 : ℕ) : ℤ) = _
  push_cast
  ring

/-- IEEE-754 justification for modelling the source's
`std::ceil(double(raw) / 2352)` by the exact integer ceiling: any
approximation `q` of `x / 2352` that is exact when the true quotient is an
integer (as a correctly rounded IEEE quotient of representable operands
is) and whose absolute error is at most `2^-33` (half an ulp at the
magnitude `x / 2352 < 2^21` reached for `x < 2^32`) has the exact
ceiling. -/
theorem float_ceil_div_agrees (x : Nat) (q : ℚ)
    (hexact : x % 2352 = 0 → q = (x : ℚ) / 2352)
    (herr : |q - (x : ℚ) / 2352| ≤ 1 / 8589934592) :
    ⌈q⌉ = (((x + 2351) / 2352 : ℕ) : ℤ) := by
  rcases eq_or_ne (x % 2352) 0 with hm | hm
  · rw [hexact hm]
    obtain ⟨k, rfl⟩ : ∃ k, x = 2352 * k := ⟨x / 2352, by omega⟩
    have hdiv : ((2352 * k : ℕ) : ℚ) / 2352 = ((k : ℕ) : ℚ) := by
      push_cast
      field_simp
    rw [hdiv, Int.ceil_natCast]
    have : (2352 * k + 2351) / 2352 = k := by omega
    rw [this]
  · have habs := abs_le.mp herr
    have h1 : 1 ≤ x % 2352 := Nat.one_le_iff_ne_zero.mpr hm
    have h2 : x % 2352 ≤ 2351 := by omega
    have hsplit : x = 2352 * (x / 2352) + x % 2352 := by omega
    have hxq : (x : ℚ) = 2352 * ((x / 2352 : ℕ) : ℚ) + ((x % 2352 : ℕ) : ℚ) := by
      exact_mod_cast congrArg (Nat.cast : ℕ → ℚ) hsplit
    have hdq : (x : ℚ) / 2352 = ((x / 2352 : ℕ) : ℚ) + ((x % 2352 : ℕ) : ℚ) / 2352 := by
      rw [hxq]
      ring
    have hlo : (1 : ℚ) / 2352 ≤ ((x % 2352 : ℕ) : ℚ) / 2352 := by
      apply div_le_div_of_nonneg_right ?_ (by norm_num)
      exact_mod_cast h1
    have hhi : ((x % 2352 : ℕ) : ℚ) / 2352 ≤ 2351 / 2352 := by
      apply div_le_div_of_nonneg_right ?_ (by norm_num)
      exact_mod_cast h2
    have hgoal : ((x + 2351) / 2352 : ℕ) = x / 2352 + 1 := by omega
    rw [hgoal]
    rw [Int.ceil_eq_iff]
    simp only [Nat.cast_add, Nat.cast_one, Int.cast_add, Int.cast_one, Int.cast_natCast]
    constructor
    · have : ((x / 2352 : ℕ) : ℚ) + 1 / 2352 - 1 / 8589934592 ≤ q := by
        rw [hdq] at habs
        linarith [habs.1]
      linarith [this]
    · have : q ≤ ((x / 2352 : ℕ) : ℚ) + 2351 / 2352 + 1 / 8589934592 := by
        rw [hdq] at habs
        linarith [habs.2]
      linarith [this]

/-- The block written for one input file always has exactly
`alignedSize` bytes. -/
theorem fileBlock_length (c : List Nat) :
    (fileBlock c).length = alignedSize (rawSize c) := by
  simp [fileBlock]

/-- Within the first `min rawSize bytesRead` positions the block carries
the payload bytes. -/
theorem fileBlock_getElem_payload (c : List Nat) (i : Nat)
    (h1 : i < min (rawSize c) (bytesRead c)) (h2 : i < alignedSize (rawSize c)) :
    (fileBlock c)[i]? = (payload c)[i]? := by
  have hb : i < bytesRead c := lt_of_lt_of_le h1 (min_le_right _ _)
  have hr : i < rawSize c := lt_of_lt_of_le h1 (min_le_left _ _)
  have hlen : i < ((payload c).take (rawSize c)).length := by
    simp only [List.length_take]
    unfold bytesRead at hb
    omega
  unfold fileBlock
  rw [List.getElem?_take, if_pos h2, List.getElem?_append, if_pos hlen,
    List.getElem?_take, if_pos hr]

/-- Positions from `rawSize` up to `alignedSize` in the block are zero. -/
theorem fileBlock_getElem_pad (c : List Nat) (i : Nat)
    (h1 : rawSize c ≤ i) (h2 : i < alignedSize (rawSize c)) :
    (fileBlock c)[i]? = some 0 := by
  have hlen : ((payload c).take (rawSize c)).length ≤ i := by
    simp only [List.length_take]
    omega
  unfold fileBlock
  rw [List.getElem?_take, if_pos h2, List.getElem?_append, if_neg (by omega),
    List.getElem?_replicate, if_pos (by simp only [List.length_take]; omega)]

/-- When every input file opens and validates, `convertGo` writes the
concatenation of the blocks, records the expected track list, and raises
no error. -/
theorem convertGo_ok (files : List (String × Option (List Nat)))
    (hok : ∀ f ∈ files, fileOkB f = true) (off : Nat) :
    convertGo off files = ⟨(files.map blockOf).flatten, trackList off files, none⟩ := by
  induction files generalizing off with
  | nil => rfl
  | cons f fs ih =>
    obtain ⟨p, oc⟩ := f
    have hf := hok _ (List.mem_cons_self _ _)
    cases oc with
    | none => simp [fileOkB] at hf
    | some c =>
      have hv : validateHeader c = true := by simpa [fileOkB] using hf
      have ihr := ih (fun g hg => hok g (List.mem_cons_of_mem _ hg))
      simp [convertGo, hv, ihr, trackList, blockOf, nextOff, frameInc]

/-- Processing a prefix of well-formed files then the remainder:
the final state is the prefix's output followed by whatever the remainder
produces from the advanced counter. -/
theorem convertGo_append_ok (pre rest : List (String × Option (List Nat)))
    (hok : ∀ f ∈ pre, fileOkB f = true) (off : Nat) :
    convertGo off (pre ++ rest) =
      ⟨(pre.map blockOf).flatten ++ (convertGo (offAfter off pre) rest).bin,
       trackList off pre ++ (convertGo (offAfter off pre) rest).tracks,
       (convertGo (offAfter off pre) rest).err⟩ := by
  induction pre generalizing off with
  | nil => simp [trackList, offAfter]
  | cons f fs ih =>
    obtain ⟨p, oc⟩ := f
    have hf := hok _ (List.mem_cons_self _ _)
    cases oc with
    | none => simp [fileOkB] at hf
    | some c =>
      have hv : validateHeader c = true := by simpa [fileOkB] using hf
      have ihr := ih (fun g hg => hok g (List.mem_cons_of_mem _ hg))
      simp [convertGo, hv, ihr, trackList, offAfter, blockOf, nextOff, frameInc]

/-- A failing file at the head of the remaining list stops processing at
once with the corresponding error and contributes nothing. -/
theorem convertGo_fail (off : Nat) (x : String × Option (List Nat))
    (rest : List (String × Option (List Nat))) (hx : fileOkB x = false) :
    convertGo off (x :: rest) = ⟨[], [], some (stepError x)⟩ := by
  obtain ⟨p, oc⟩ := x
  cases oc with
  | none => rfl
  | some c =>
    have hv : validateHeader c = false := by simpa [fileOkB] using hx
    simp [convertGo, hv, stepError]

/-- The track list has one entry per input file. -/
theorem trackList_length (files : List (String × Option (List Nat))) (off : Nat) :
    (trackList off files).length = files.length := by
  induction files generalizing off with
  | nil => rfl
  | cons f fs ih =>
    obtain ⟨p, oc⟩ := f
    simp [trackList, ih]

/-- As long as the final counter stays below `2^32`, the recorded offsets
are the exact partial sums of the per-file frame increments shifted by the
starting counter. -/
theorem trackList_offset (files : List (String × Option (List Nat))) (off i : Nat)
    (htot : off + (files.map frameInc).sum < 4294967296)
    (hi : i < (trackList off files).length) :
    ((trackList off files).get ⟨i, hi⟩).offsetFrames
      = off + ((files.take i).map frameInc).sum := by
  induction files generalizing off i with
  | nil => simp [trackList] at hi
  | cons f fs ih =>
    obtain ⟨p, oc⟩ := f
    cases i with
    | zero => simp [trackList]
    | succ j =>
      have hsum : (List.map frameInc ((p, oc) :: fs)).sum
          = frameInc (p, oc) + (fs.map frameInc).sum := by simp
      have hnext : nextOff off (p, oc) = off + frameInc (p, oc) :=
        Nat.mod_eq_of_lt (by omega)
      have hj : j < (trackList (nextOff off (p, oc)) fs).length := by
        simpa [trackList] using hi
      have := ih (nextOff off (p, oc)) j (by rw [hnext]; omega) hj
      simp only [trackList, List.get_cons_succ, this, hnext, List.take_succ_cons,
        List.map_cons, List.sum_cons]
      omega

/-- C1 (amended): for every `rawSize` up to 4294966032 — the largest value
whose sector-aligned size still fits in `uint32_t` — the computed
`alignedSize` equals the exact integer ceiling `⌈rawSize / 2352⌉ * 2352`
with no rounding error, is a multiple of 2352, dominates `rawSize`, and
overshoots by less than one sector.  (As stated over all 32-bit `rawSize`
the claim fails: see `claim1_counterexample`.) -/
theorem claim1_aligned_exact (raw : Nat) (h : raw ≤ 4294966032) :
    (alignedSize raw : ℤ) = 2352 * ⌈(raw : ℚ) / 2352⌉
    ∧ alignedSize raw % 2352 = 0
    ∧ raw ≤ alignedSize raw
    ∧ alignedSize raw - raw < 2352 := by
  rw [alignedSize_eq_exact raw h]
  exact ⟨alignedSizeExact_eq_ceil raw, alignedSizeExact_mod raw,
    (le_alignedSizeExact raw).1, (le_alignedSizeExact raw).2⟩

/-- Witness for C1 at `rawSize = 5000` (aligned to 7056 = 3 sectors). -/
theorem claim1_aligned_exact_witness :
    (alignedSize 5000 : ℤ) = 2352 * ⌈((5000 : Nat) : ℚ) / 2352⌉
    ∧ alignedSize 5000 % 2352 = 0
    ∧ 5000 ≤ alignedSize 5000
    ∧ alignedSize 5000 - 5000 < 2352 :=
  claim1_aligned_exact 5000 (by norm_num)

/-- C1 counterexample: at `rawSize = 2^32 - 1` the aligned size
`⌈(2^32-1)/2352⌉ * 2352 = 4294968384` does not fit in the `uint32_t`
variable; the stored value (wrap-around model of the out-of-range
double-to-`uint32_t` conversion) is 1088, which is smaller than `rawSize`
and not a multiple of 2352. -/
theorem claim1_counterexample :
    alignedSize 4294967295 = 1088
    ∧ ¬ (4294967295 ≤ alignedSize 4294967295)
    ∧ alignedSize 4294967295 % 2352 ≠ 0 := by
  refine ⟨by decide, by decide, by decide⟩

/-- C2 (amended): for every sequence of valid input WAV files whose
declared payload sizes are at most 4294966032 (so that sector alignment
does not overflow `uint32_t`), the BIN output is the concatenation of the
per-track `alignedSize`-byte blocks in input order, each block carries the
payload bytes on `[0, min(rawSize, bytesRead))` and zeros on
`[rawSize, alignedSize)`, and the total BIN length is the sum of the
`alignedSize`s.  (Without the size bound the claim fails: see
`claim2_counterexample`.) -/
theorem claim2_bin_layout (files : List (String × Option (List Nat)))
    (hok : ∀ f ∈ files, fileOkB f = true)
    (hsz : ∀ f ∈ files, ∀ c, f.2 = some c → rawSize c ≤ 4294966032) :
    (convertWAVToBIN files).bin = (files.map blockOf).flatten
    ∧ (∀ f ∈ files, ∀ c, f.2 = some c →
        (∀ i, i < min (rawSize c) (bytesRead c) → (fileBlock c)[i]? = (payload c)[i]?)
        ∧ (∀ i, rawSize c ≤ i → i < alignedSize (rawSize c) → (fileBlock c)[i]? = some 0))
    ∧ (convertWAVToBIN files).bin.length
        = (files.map (fun f => alignedSize (rawSize (f.2.getD [])))).sum := by
  have hconv := convertGo_ok files hok 0
  refine ⟨by rw [convertWAVToBIN, hconv], ?_, ?_⟩
  · intro f hf c hc
    have hraw := hsz f hf c hc
    have hra : rawSize c ≤ alignedSize (rawSize c) := by
      rw [alignedSize_eq_exact _ hraw]
      exact (le_alignedSizeExact _).1
    refine ⟨fun i hi => fileBlock_getElem_payload c i hi (by omega), ?_⟩
    exact fun i h1 h2 => fileBlock_getElem_pad c i h1 h2
  · rw [convertWAVToBIN, hconv]
    show ((files.map blockOf).flatten).length = _
    rw [List.length_flatten, List.map_map]
    congr 1
    apply List.map_congr_left
    intro f _
    simp [Function.comp, blockOf, fileBlock_length]

/-- Witness for C2 on a single well-formed input file. -/
theorem claim2_bin_layout_witness :
    (convertWAVToBIN goodFiles).bin = (goodFiles.map blockOf).flatten
    ∧ (∀ f ∈ goodFiles, ∀ c, f.2 = some c →
        (∀ i, i < min (rawSize c) (bytesRead c) → (fileBlock c)[i]? = (payload c)[i]?)
        ∧ (∀ i, rawSize c ≤ i → i < alignedSize (rawSize c) → (fileBlock c)[i]? = some 0))
    ∧ (convertWAVToBIN goodFiles).bin.length
        = (goodFiles.map (fun f => alignedSize (rawSize (f.2.getD [])))).sum :=
  claim2_bin_layout goodFiles (by decide) (by decide)

set_option maxRecDepth 20000 in
/-- C2 counterexample: a valid WAV file declaring `subchunk2Size = 2^32-1`
with 1089 actual payload bytes of value 1.  The overflowed `alignedSize`
is 1088, so the written block is too short to carry the payload bytes the
claim demands: position 1088 is inside `[0, min(rawSize, bytesRead))` but
absent from the block while the payload holds the byte 1 there. -/
theorem claim2_counterexample : ¬ ClaimC2 [("a.wav", some cexC2content)] := by
  intro h
  have hok : ∀ f ∈ [(("a.wav" : String), some cexC2content)], fileOkB f = true := by decide
  obtain ⟨-, hpay, -⟩ := h hok
  have h1 := (hpay ("a.wav", some cexC2content) (by simp) cexC2content rfl).1 1088 (by decide)
  have hL : (fileBlock cexC2content)[1088]? = none :=
    List.getElem?_eq_none (by rw [fileBlock_length]; decide)
  have hR : (payload cexC2content)[1088]? = some 1 := by decide
  rw [hL, hR] at h1
  exact Option.noConfusion h1

/-- C3 (amended): for every sequence of valid input WAV files whose
payload sizes are at most 4294966032 and whose total frame count stays
below `2^32` (so the `uint32_t` counter does not wrap), `offsetFrames` of
track `i` is the exact sum of `alignedSize / 2352` over tracks `0..i-1`,
every `alignedSize` is a multiple of 2352 (the divisions are exact), and
track 0's offset is 0.  (Without the size bound the multiple-of-2352 part
fails: see `claim3_counterexample`.) -/
theorem claim3_offsets (files : List (String × Option (List Nat)))
    (hok : ∀ f ∈ files, fileOkB f = true)
    (htot : (files.map frameInc).sum < 4294967296)
    (hsz : ∀ f ∈ files, ∀ c, f.2 = some c → rawSize c ≤ 4294966032) :
    (∀ i (hi : i < (convertWAVToBIN files).tracks.length),
       ((convertWAVToBIN files).tracks.get ⟨i, hi⟩).offsetFrames
         = ((files.take i).map frameInc).sum)
    ∧ (∀ f ∈ files, ∀ c, f.2 = some c → alignedSize (rawSize c) % 2352 = 0)
    ∧ (∀ h0 : 0 < (convertWAVToBIN files).tracks.length,
        ((convertWAVToBIN files).tracks.get ⟨0, h0⟩).offsetFrames = 0) := by
  have hconv := convertGo_ok files hok 0
  have htr : (convertWAVToBIN files).tracks = trackList 0 files := by
    rw [convertWAVToBIN, hconv]
  have hoff : ∀ i (hi : i < (convertWAVToBIN files).tracks.length),
      ((convertWAVToBIN files).tracks.get ⟨i, hi⟩).offsetFrames
        = ((files.take i).map frameInc).sum := by
    intro i hi
    have hi2 : i < (trackList 0 files).length := by rw [← htr]; exact hi
    have := trackList_offset files 0 i (by omega) hi2
    simp only [Nat.zero_add] at this
    rw [← this]
    congr 1
    exact List.get_of_eq htr ⟨i, hi⟩
  refine ⟨hoff, ?_, ?_⟩
  · intro f hf c hc
    rw [alignedSize_eq_exact _ (hsz f hf c hc)]
    exact alignedSizeExact_mod _
  · intro h0
    have := hoff 0 h0
    simpa using this

/-- Witness for C3 on a single well-formed input file. -/
theorem claim3_offsets_witness :
    (∀ i (hi : i < (convertWAVToBIN goodFiles).tracks.length),
       ((convertWAVToBIN goodFiles).tracks.get ⟨i, hi⟩).offsetFrames
         = ((goodFiles.take i).map frameInc).sum)
    ∧ (∀ f ∈ goodFiles, ∀ c, f.2 = some c → alignedSize (rawSize c) % 2352 = 0)
    ∧ (∀ h0 : 0 < (convertWAVToBIN goodFiles).tracks.length,
        ((convertWAVToBIN goodFiles).tracks.get ⟨0, h0⟩).offsetFrames = 0) :=
  claim3_offsets goodFiles (by decide) (by decide) (by decide)

/-- C3 counterexample: a valid header declaring `subchunk2Size = 2^32-1`
makes the stored `alignedSize` 1088, which is not a multiple of 2352, so
the claim's "every alignedSize is a multiple of 2352 / the division is
exact" part fails. -/
theorem claim3_counterexample : ¬ ClaimC3 [("a.wav", some cexHeader)] := by
  intro h
  have hok : ∀ f ∈ [(("a.wav" : String), some cexHeader)], fileOkB f = true := by decide
  obtain ⟨-, hdvd, -⟩ := h hok
  have h1 := hdvd ("a.wav", some cexHeader) (by simp)
  exact absurd h1 (by decide)

/-- Any value below 100 renders as exactly two characters under the
source's `setw(2)`/`setfill('0')` padding. -/
theorem pad2_length_two : ∀ n, n < 100 → (pad2 n).length = 2 := by decide

/-- The colon separator is one character. -/
theorem colon_length : (":" : String).length = 1 := by decide

/-- The digit accumulator of `Nat.toDigitsCore` only grows: the result is
at least as long as the accumulator passed in. -/
theorem toDigitsCore_length_mono (b : Nat) : ∀ (f n : Nat) (ds : List Char),
    ds.length ≤ (Nat.toDigitsCore b f n ds).length := by
  intro f
  induction f with
  | zero => intro n ds; simp [Nat.toDigitsCore]
  | succ g ih =>
    intro n ds
    simp only [Nat.toDigitsCore]
    split
    · simp only [List.length_cons]; omega
    · calc ds.length ≤ (Nat.digitChar (n % b) :: ds).length := by simp
        _ ≤ _ := ih (n / b) (Nat.digitChar (n % b) :: ds)

/-- With positive fuel, `Nat.toDigitsCore` emits at least one digit. -/
theorem toDigitsCore_length_succ (b f n : Nat) (ds : List Char) :
    ds.length + 1 ≤ (Nat.toDigitsCore b (f + 1) n ds).length := by
  simp only [Nat.toDigitsCore]
  split
  · simp
  · have := toDigitsCore_length_mono b f (n / b) (Nat.digitChar (n % b) :: ds)
    simpa using this

/-- A number whose first two base-10 quotients are nonzero yields at
least three digits (given fuel for three steps). -/
theorem toDigitsCore_length_three (f n : Nat) (ds : List Char)
    (h1 : ¬ (n / 10 = 0)) (h2 : ¬ (n / 10 / 10 = 0)) :
    ds.length + 3 ≤ (Nat.toDigitsCore 10 (f + 3) n ds).length := by
  simp only [Nat.toDigitsCore, h1, h2, if_false]
  split
  · simp only [List.length_cons]; omega
  · refine le_trans ?_ (toDigitsCore_length_mono 10 f _ _)
    simp only [List.length_cons]
    omega

/-- The decimal rendering of a natural number is nonempty. -/
theorem repr_length_pos (n : Nat) : 1 ≤ (Nat.repr n).length := by
  simp only [Nat.repr, Nat.toDigits, String.length, List.asString]
  have := toDigitsCore_length_succ 10 n n []
  simpa using this

/-- The decimal rendering of a number at least 100 has at least three
digits. -/
theorem repr_length_ge_three (n : Nat) (h : 100 ≤ n) : 3 ≤ (Nat.repr n).length := by
  simp only [Nat.repr, Nat.toDigits, String.length, List.asString]
  obtain ⟨m, hm⟩ : ∃ m, n + 1 = m + 3 := ⟨n - 2, by omega⟩
  rw [hm]
  have h1 : ¬ (n / 10 = 0) := by omega
  have h2 : ¬ (n / 10 / 10 = 0) := by omega
  have := toDigitsCore_length_three m n [] h1 h2
  simpa using this

/-- Unfolding of `pad2`: pad the decimal rendering on the left with `0`
when it is shorter than two characters. -/
theorem pad2_def (n : Nat) :
    pad2 n = if (toString n).length < 2 then "0" ++ toString n else toString n := rfl

/-- Every `setw(2)`-padded field is at least two characters. -/
theorem pad2_length_min (n : Nat) : 2 ≤ (pad2 n).length := by
  rw [pad2_def]
  split
  · rw [String.length_append]
    have h1 : 1 ≤ (toString n).length := repr_length_pos n
    have h0 : ("0" : String).length = 1 := by decide
    omega
  · next hcond =>
    omega

/-- A `setw(2)`-padded field is exactly two characters iff the value is
below 100. -/
theorem pad2_length_eq_two_iff (n : Nat) : (pad2 n).length = 2 ↔ n < 100 := by
  constructor
  · intro hlen
    by_contra hn
    have h3 : 3 ≤ (toString n).length := repr_length_ge_three n (by omega)
    rw [pad2_def, if_neg (by omega)] at hlen
    omega
  · exact pad2_length_two n

/-- C4 (amended): for every `offsetFrames`, the INDEX timecode is
`pad(MM):pad(SS):pad(FF)` with `MM = offsetFrames / (75*60)`,
`SS = offsetFrames / 75 mod 60`, `FF = offsetFrames mod 75`, each field
zero-padded to a MINIMUM of two digits (that is what `setw(2)` does);
`SS` and `FF` are always exactly two digits, and `MM` — hence the whole
8-character `MM:SS:FF` shape — is exactly two digits precisely when
`offsetFrames < 450000` (`MM < 100`).  The spec's four examples hold.
(Fields are not "exactly 2 digits" in general: see
`claim4_counterexample`.) -/
theorem claim4_timecode (f : Nat) :
    timecode f = pad2 (f / (75 * 60)) ++ ":" ++ pad2 (f / 75 % 60) ++ ":" ++ pad2 (f % 75)
    ∧ (pad2 (f / 75 % 60)).length = 2
    ∧ (pad2 (f % 75)).length = 2
    ∧ 2 ≤ (pad2 (f / (75 * 60))).length
    ∧ ((pad2 (f / (75 * 60))).length = 2 ↔ f < 450000)
    ∧ ((timecode f).length = 8 ↔ f < 450000)
    ∧ timecode 0 = "00:00:00"
    ∧ timecode 75 = "00:01:00"
    ∧ timecode 4500 = "01:00:00"
    ∧ timecode 80 = "00:01:05" := by
  have hSS : (pad2 (f / 75 % 60)).length = 2 := pad2_length_two _ (by omega)
  have hFF : (pad2 (f % 75)).length = 2 := pad2_length_two _ (by omega)
  have hMM : (pad2 (f / (75 * 60))).length = 2 ↔ f < 450000 := by
    rw [pad2_length_eq_two_iff]
    omega
  have hlen : (timecode f).length = (pad2 (f / (75 * 60))).length + 6 := by
    show (pad2 (f / (75 * 60)) ++ ":" ++ pad2 (f / 75 % 60) ++ ":" ++ pad2 (f % 75)).length = _
    rw [String.length_append, String.length_append, String.length_append,
      String.length_append, hSS, hFF, colon_length]
  refine ⟨rfl, hSS, hFF, pad2_length_min _, hMM, ?_, by decide, by decide, by decide, by decide⟩
  rw [hlen]
  constructor
  · intro h8
    exact hMM.mp (by omega)
  · intro hlt
    have := hMM.mpr hlt
    omega

/-- Witness for C4: the theorem instantiated at `offsetFrames = 80`. -/
theorem claim4_timecode_witness :
    timecode 80 = pad2 (80 / (75 * 60)) ++ ":" ++ pad2 (80 / 75 % 60) ++ ":" ++ pad2 (80 % 75)
    ∧ (pad2 (80 / 75 % 60)).length = 2
    ∧ (pad2 (80 % 75)).length = 2
    ∧ 2 ≤ (pad2 (80 / (75 * 60))).length
    ∧ ((pad2 (80 / (75 * 60))).length = 2 ↔ 80 < 450000)
    ∧ ((timecode 80).length = 8 ↔ 80 < 450000)
    ∧ timecode 0 = "00:00:00"
    ∧ timecode 75 = "00:01:00"
    ∧ timecode 4500 = "01:00:00"
    ∧ timecode 80 = "00:01:05" :=
  claim4_timecode 80

/-- C4 counterexample: at `offsetFrames = 450000` the minutes field is
`100`, three digits, so the timecode is 9 characters instead of the 8 the
claim's "each field zero-padded to exactly 2 digits" demands. -/
theorem claim4_counterexample :
    timecode 450000 = "100:00:00" ∧ (timecode 450000).length ≠ 8 := by
  refine ⟨by decide, by decide⟩

/-- Folding string concatenation from any accumulator splits off the
accumulator. -/
theorem stringFoldl_shift (l : List String) : ∀ a : String,
    List.foldl (fun r s => r ++ s) a l = a ++ List.foldl (fun r s => r ++ s) "" l := by
  induction l with
  | nil => intro a; simp [String.append_empty]
  | cons x xs ih =>
    intro a
    simp only [List.foldl_cons]
    rw [ih (a ++ x), ih ("" ++ x), String.empty_append, String.append_assoc]

/-- Joining a nonempty list of strings prepends its head. -/
theorem stringJoin_cons (s : String) (l : List String) :
    String.join (s :: l) = s ++ String.join l := by
  show List.foldl (fun r t => r ++ t) "" (s :: l) = _
  simp only [List.foldl_cons]
  rw [String.empty_append, stringFoldl_shift l s]
  rfl

/-- The per-track CUE lines starting at index `i` are the join of the
per-track entries zipped with the index range starting at `i`. -/
theorem cueBody_eq_zip (ts : List TrackInfo) : ∀ i : Nat,
    cueBody i ts
      = String.join ((ts.zip (List.range' i ts.length)).map (fun ti => trackEntry ti.2 ti.1)) := by
  induction ts with
  | nil => intro i; rfl
  | cons t ts ih =>
    intro i
    rw [show (t :: ts).length = ts.length + 1 from rfl, List.range'_succ,
      List.zip_cons_cons, List.map_cons, stringJoin_cons, cueBody, ← ih (i + 1)]

/-- C5 (amended): the CUE output is exactly one
`FILE "<binFileName>" BINARY` line with `binFileName` reproduced verbatim,
followed per track (in input order) by a `TRACK <n> AUDIO` line with the
1-based sequential track number printed in plain decimal WITHOUT zero
padding — the source writes `(i + 1)` with no `setw` — then the `TITLE`
and `INDEX 01` lines.  (The claim's two-digit `TRACK 01` format fails:
see `claim5_counterexample`.) -/
theorem claim5_cue_format (bn : String) (tracks : List TrackInfo) :
    writeCUEFile bn tracks = specCueUnpadded bn tracks := by
  unfold writeCUEFile specCueUnpadded
  rw [cueBody_eq_zip tracks 0, ← List.range_eq_range']
  rfl

/-- C5 counterexample: for one track the source emits `  TRACK 1 AUDIO`,
not the zero-padded `  TRACK 01 AUDIO` the claim specifies. -/
theorem claim5_counterexample : ¬ ClaimC5 "out.bin" [⟨"track1", 0⟩] := by
  unfold ClaimC5
  decide

/-- C6 (confirmed): header validation fails exactly when
`chunkID ≠ "RIFF"` or `format ≠ "WAVE"` or `audioFormat ≠ 1`; it depends
on no other header field (any two headers agreeing on those three fields
validate identically); and a header passing the three checks is accepted:
its file is processed into its block and track entry with no error. -/
theorem claim6_validation (c : List Nat) :
    (validateHeader c = false
      ↔ chunkID c ≠ riffBytes ∨ formatField c ≠ waveBytes ∨ audioFormat c ≠ 1)
    ∧ (∀ c2, chunkID c2 = chunkID c → formatField c2 = formatField c →
        audioFormat c2 = audioFormat c → validateHeader c2 = validateHeader c)
    ∧ (validateHeader c = true →
        ∀ p off, convertGo off [(p, some c)] = ⟨fileBlock c, [⟨stem p, off⟩], none⟩) := by
  refine ⟨?_, ?_, ?_⟩
  · rw [← Bool.not_eq_true]
    simp [validateHeader]
    tauto
  · intro c2 h1 h2 h3
    rw [validateHeader, validateHeader, h1, h2, h3]
  · intro hv p off
    simp [convertGo, hv]

/-- Witness for C6: the sample valid header is accepted and processed;
its validation result agrees with the three-condition characterisation. -/
theorem claim6_validation_witness :
    convertGo 0 [("t.wav", some goodFile)] = ⟨fileBlock goodFile, [⟨stem "t.wav", 0⟩], none⟩ :=
  (claim6_validation goodFile).2.2 (by decide) "t.wav" 0

/-- C7 (confirmed): when the files before `x` all succeed and `x` fails
(unopenable, or invalid header), the assembler stops at `x`: the BIN holds
exactly the blocks of the earlier tracks (left in place, not rolled
back), the track list holds exactly the earlier tracks (none for `x`,
none for any later file), and the error — `IOError` with message
`Failed to open WAV file: <path>` for an unopenable file, `FormatError`
with a message containing the path for an invalid one — propagates
unchanged as the result's error. -/
theorem claim7_abort (pre : List (String × Option (List Nat)))
    (x : String × Option (List Nat)) (rest : List (String × Option (List Nat)))
    (hpre : ∀ f ∈ pre, fileOkB f = true) (hx : fileOkB x = false) :
    convertWAVToBIN (pre ++ x :: rest)
      = ⟨(pre.map blockOf).flatten, trackList 0 pre, some (stepError x)⟩
    ∧ (x.2 = none → errMsg (stepError x) = "Failed to open WAV file: " ++ x.1)
    ∧ (∀ c, x.2 = some c →
        errMsg (stepError x) = "Invalid or unsupported WAV file format: " ++ x.1) := by
  refine ⟨?_, ?_, ?_⟩
  · rw [convertWAVToBIN, convertGo_append_ok pre (x :: rest) hpre 0,
      convertGo_fail (offAfter 0 pre) x rest hx]
    simp
  · intro hn
    obtain ⟨p, oc⟩ := x
    simp only at hn
    rw [hn] at hx ⊢
    rfl
  · intro c hc
    obtain ⟨p, oc⟩ := x
    simp only at hc
    rw [hc] at hx ⊢
    rfl

/-- Witness for C7: one good file, then an unopenable file, then another
good file; the run aborts at the unopenable file with its `IOError`. -/
theorem claim7_abort_witness :
    convertWAVToBIN ([("g.wav", some goodFile)]
        ++ ("missing.wav", (none : Option (List Nat))) :: [("h.wav", some goodFile)])
      = ⟨([(("g.wav" : String), some goodFile)].map blockOf).flatten,
         trackList 0 [("g.wav", some goodFile)],
         some (stepError ("missing.wav", none))⟩
    ∧ (("missing.wav", (none : Option (List Nat))).2 = none →
        errMsg (stepError ("missing.wav", none))
          = "Failed to open WAV file: " ++ ("missing.wav", (none : Option (List Nat))).1)
    ∧ (∀ c, ("missing.wav", (none : Option (List Nat))).2 = some c →
        errMsg (stepError ("missing.wav", none))
          = "Invalid or unsupported WAV file format: "
              ++ ("missing.wav", (none : Option (List Nat))).1) :=
  claim7_abort [("g.wav", some goodFile)] ("missing.wav", none) [("h.wav", some goodFile)]
    (by decide) (by decide)

/-- C8 (confirmed): with fewer than 4 argv entries (program name, BIN
path, CUE path, at least one input WAV) the driver prints the banner to
stdout and the usage line to stderr and exits 1; it exits 0 exactly when
the argument count suffices, both output files open, and conversion
raises no error, in which case stdout is the completion message; on any
core error it prints `Error: <message>` to stderr and exits 1; the exit
code is always 0 or 1. -/
theorem claim8_exit_codes (argv : List String) (fs : String → Option (List Nat))
    (binOpen cueOpen : Bool) :
    (argv.length < 4 →
      mainModel argv fs binOpen cueOpen = (1, bannerMsg, usageMsg (argv.headD "")))
    ∧ ((mainModel argv fs binOpen cueOpen).1 = 0 ↔
        4 ≤ argv.length ∧ binOpen = true ∧ cueOpen = true
        ∧ (convertWAVToBIN ((argv.drop 3).map (fun p => (p, fs p)))).err = none)
    ∧ (4 ≤ argv.length → binOpen = true →
        ∀ e, (convertWAVToBIN ((argv.drop 3).map (fun p => (p, fs p)))).err = some e →
          mainModel argv fs binOpen cueOpen = (1, "", "Error: " ++ errMsg e ++ "\n"))
    ∧ ((mainModel argv fs binOpen cueOpen).1 = 0 →
        mainModel argv fs binOpen cueOpen = (0, "Conversion completed successfully.\n", ""))
    ∧ ((mainModel argv fs binOpen cueOpen).1 = 0 ∨ (mainModel argv fs binOpen cueOpen).1 = 1) := by
  by_cases h4 : argv.length < 4
  · simp [mainModel, h4]
  · cases binOpen with
    | false => simp [mainModel, h4]
    | true =>
      rcases herr : (convertWAVToBIN ((argv.drop 3).map (fun p => (p, fs p)))).err with _ | e
      · cases cueOpen with
        | false => simp [mainModel, h4, herr, -List.map_drop]
        | true =>
          simp [mainModel, h4, herr, -List.map_drop]
          omega
      · simp [mainModel, h4, herr, -List.map_drop]

/-- Witness for C8: with no input files resolvable (`argv` too short) the
usage branch is taken, and with a full argv over an empty filesystem the
error branch is taken. -/
theorem claim8_exit_codes_witness :
    ((["prog"] : List String).length < 4 →
      mainModel ["prog"] (fun _ => none) true true
        = (1, bannerMsg, usageMsg ((["prog"] : List String).headD "")))
    ∧ ((mainModel ["prog"] (fun _ => none) true true).1 = 0 ↔
        4 ≤ (["prog"] : List String).length ∧ true = true ∧ true = true
        ∧ (convertWAVToBIN (((["prog"] : List String).drop 3).map
            (fun p => (p, (fun _ => (none : Option (List Nat))) p)))).err = none)
    ∧ (4 ≤ (["prog"] : List String).length → true = true →
        ∀ e, (convertWAVToBIN (((["prog"] : List String).drop 3).map
            (fun p => (p, (fun _ => (none : Option (List Nat))) p)))).err = some e →
          mainModel ["prog"] (fun _ => none) true true = (1, "", "Error: " ++ errMsg e ++ "\n"))
    ∧ ((mainModel ["prog"] (fun _ => none) true true).1 = 0 →
        mainModel ["prog"] (fun _ => none) true true
          = (0, "Conversion completed successfully.\n", ""))
    ∧ ((mainModel ["prog"] (fun _ => none) true true).1 = 0
        ∨ (mainModel ["prog"] (fun _ => none) true true).1 = 1) :=
  claim8_exit_codes ["prog"] (fun _ => none) true true

/-- C9 (confirmed): a validated input declaring `subchunk2Size = 0`
contributes an empty block (zero bytes appended to the BIN), still gets a
`TrackInfo` at the current counter, and leaves the counter unchanged, so
a following valid track records the same offset and hence renders the
same INDEX timecode; the zero-length track is accepted silently. -/
theorem claim9_zero_track (p : String) (c : List Nat)
    (rest : List (String × Option (List Nat))) (off : Nat)
    (hv : validateHeader c = true) (h0 : rawSize c = 0) (hoff : off < 4294967296) :
    convertGo off ((p, some c) :: rest)
      = ⟨(convertGo off rest).bin, ⟨stem p, off⟩ :: (convertGo off rest).tracks,
         (convertGo off rest).err⟩
    ∧ fileBlock c = []
    ∧ (∀ q d rest2, rest = (q, some d) :: rest2 → validateHeader d = true →
        ((convertGo off ((p, some c) :: rest)).tracks[1]?.map TrackInfo.offsetFrames
          = some off)) := by
  have ha : alignedSize (rawSize c) = 0 := by rw [h0]; rfl
  have hblock : fileBlock c = [] := by
    unfold fileBlock
    rw [ha]
    simp
  have hstep : convertGo off ((p, some c) :: rest)
      = ⟨(convertGo off rest).bin, ⟨stem p, off⟩ :: (convertGo off rest).tracks,
         (convertGo off rest).err⟩ := by
    rw [convertGo]
    rw [if_pos hv]
    rw [ha]
    simp only [Nat.zero_div, Nat.add_zero, Nat.mod_eq_of_lt hoff, hblock,
      List.nil_append]
  refine ⟨hstep, hblock, ?_⟩
  intro q d rest2 hr hd
  subst hr
  rw [hstep]
  rw [convertGo, if_pos hd]
  simp

/-- Witness for C9: a zero-size track followed by a normal track. -/
theorem claim9_zero_track_witness :
    convertGo 0 (("z.wav", some zeroHeader) :: [("t.wav", some goodFile)])
      = ⟨(convertGo 0 [("t.wav", some goodFile)]).bin,
         ⟨stem "z.wav", 0⟩ :: (convertGo 0 [("t.wav", some goodFile)]).tracks,
         (convertGo 0 [("t.wav", some goodFile)]).err⟩
    ∧ fileBlock zeroHeader = []
    ∧ (∀ q d rest2, [(("t.wav" : String), some goodFile)] = (q, some d) :: rest2 →
        validateHeader d = true →
        ((convertGo 0 (("z.wav", some zeroHeader) :: [("t.wav", some goodFile)])).tracks[1]?.map
            TrackInfo.offsetFrames
          = some 0)) :=
  claim9_zero_track "z.wav" zeroHeader [("t.wav", some goodFile)] 0
    (by decide) (by decide) (by decide)

/-- C10 (confirmed): conversion and CUE emission are deterministic
functions of the ordered input paths and their byte contents: two runs
over filesystems that agree on every input path produce identical BIN
bytes, identical track lists, and identical CUE text. -/
theorem claim10_deterministic (paths : List String)
    (fs1 fs2 : String → Option (List Nat)) (bn : String)
    (h : ∀ p ∈ paths, fs1 p = fs2 p) :
    convertWAVToBIN (paths.map (fun p => (p, fs1 p)))
      = convertWAVToBIN (paths.map (fun p => (p, fs2 p)))
    ∧ writeCUEFile bn (convertWAVToBIN (paths.map (fun p => (p, fs1 p)))).tracks
      = writeCUEFile bn (convertWAVToBIN (paths.map (fun p => (p, fs2 p)))).tracks := by
  have hmap : paths.map (fun p => (p, fs1 p)) = paths.map (fun p => (p, fs2 p)) :=
    List.map_congr_left (fun p hp => by rw [h p hp])
  exact ⟨by rw [hmap], by rw [hmap]⟩

/-- Witness for C10 on a one-path input over two (equal) filesystems. -/
theorem claim10_deterministic_witness :
    convertWAVToBIN (["x.wav"].map (fun p => (p, (fun _ => some goodFile) p)))
      = convertWAVToBIN (["x.wav"].map (fun p => (p, (fun _ => some goodFile) p)))
    ∧ writeCUEFile "out.bin"
        (convertWAVToBIN (["x.wav"].map (fun p => (p, (fun _ => some goodFile) p)))).tracks
      = writeCUEFile "out.bin"
        (convertWAVToBIN (["x.wav"].map (fun p => (p, (fun _ => some goodFile) p)))).tracks :=
  claim10_deterministic ["x.wav"] (fun _ => some goodFile) (fun _ => some goodFile) "out.bin"
    (fun _ _ => rfl)

end Wav2Bin
